import Mathlib

/-!
# Fiducials: the `Fly_Capture` video loop and the `Location` interface

`Fly_Capture.c` is embedded as a function from its inputs (the argument
vector, the number of connected cameras, and the keys that `CV__wait_key`
returns) to the sequence of library calls it performs and its return code.
`Location.h` only declares its operations; they are modelled from the
specification and marked as such.
-/

namespace Fiducials

/-! ## Definitions: `Fly_Capture.c` -/

/-- The routines and types that `Fly_Capture.c` uses but whose definitions
live in headers outside the source tree (`Character.h`, `String.h`,
`Unsigned.h`).  They are parameters of the embedding.
`String__format` stands for the one call
`String__format("%s-%02d.tga", capture_base_name, capture_number)`, whose
number argument is an `Unsigned`;
`Unsigned__bits` is the width of the C type behind `Unsigned`. -/
structure Library where
  Character__is_decimal_digit : Char → Bool
  String__to_unsigned : String → Nat
  String__format : String → Nat → String
  Unsigned__bits : Nat

/-- The `'\033'` character, the [Esc] key. -/
def escape_character : Char := Char.ofNat 27

/-- The `' '` character, the [space] key. -/
def space_character : Char := Char.ofNat 32

/-- The calls with an outside effect that `main` performs, in the order of
the source text.  Calls that only print camera or image details are grouped
under the call that produces the data they print. -/
inductive Event where
  /-- `File__format(stderr, "Usage: ...")`. -/
  | usage
  /-- `FC2__library_version_get` and the line printing the version. -/
  | library_version
  /-- `FC2_Camera__create` and `FC2_Camera__number_of_cameras_get`. -/
  | camera_create
  /-- `FC2_Camera__identifier_fetch(camera, camera_number)`. -/
  | identifier_fetch (camera_number : Nat)
  /-- `FC2_Camera__connect`. -/
  | connect
  /-- `FC2_Camera__information_get` and the seven lines printing it. -/
  | camera_information
  /-- `FC2_Camera__capture_start`. -/
  | capture_start
  /-- The two `FC2_Image__create` calls. -/
  | images_create
  /-- `CV__named_window` and `cvResizeWindow`. -/
  | named_window
  /-- `FC2_Camera__image_retrieve`. -/
  | image_retrieve
  /-- `FC2_Image__convert`. -/
  | image_convert
  /-- First pass only: debugging lines and `CV_Image__header_create`. -/
  | display_image_create
  /-- `CV_Image__show`. -/
  | image_show
  /-- `CV__wait_key(1)` returning `character`. -/
  | wait_key (character : Char)
  /-- `CV__tga_write(display_image, file_name)`. -/
  | tga_write (file_name : String)
  /-- `File__format(stderr, "Wrote display_image out to file ...")`. -/
  | wrote_message (file_name : String)
  /-- `CV__destroy_window`. -/
  | destroy_window
  /-- The four calls releasing storage after the loop. -/
  | storage_release
  /-- `File__format(stderr, "Camera %d is not availble.\n", camera_number)`. -/
  | not_available (camera_number : Nat)
  deriving DecidableEq

/-- The part of one loop iteration up to and including `CV__wait_key`:
retrieve, convert, allocate `display_image` the first time through, show,
and read `character`.  `display_image` tells whether the pointer is already
non-null. -/
def iteration_events (display_image : Bool) (character : Char) : List Event :=
  [Event.image_retrieve, Event.image_convert]
    ++ (if display_image then [] else [Event.display_image_create])
    ++ [Event.image_show, Event.wait_key character]

/-- The body `capture_number += 1` on an `Unsigned`. -/
def capture_number_next (lib : Library) (capture_number : Nat) : Nat :=
  (capture_number + 1) % 2 ^ lib.Unsigned__bits

/-- The `while (1)` loop of `main`, run on the keys that `CV__wait_key`
returns, one per iteration.  The result is the calls performed and whether the
loop was left through `break`; when the keys run out before an [Esc] the loop
is still running and the flag is `false`. -/
def video_loop (lib : Library) (capture_base_name : String) :
    Bool → Nat → List Char → List Event × Bool
  | _, _, [] => ([], false)
  | display_image, capture_number, character :: keys =>
    if character = escape_character then
      (iteration_events display_image character, true)
    else if character = space_character then
      let file_name := lib.String__format capture_base_name capture_number
      let rest := video_loop lib capture_base_name true
        (capture_number_next lib capture_number) keys
      (iteration_events display_image character
        ++ [Event.tga_write file_name, Event.wrote_message file_name]
        ++ rest.1, rest.2)
    else
      let rest := video_loop lib capture_base_name true capture_number keys
      (iteration_events display_image character ++ rest.1, rest.2)

/-- The base name `main` uses for the files it writes: `"video_capture"`,
overridden by `arguments[2]` when `arguments_size > 2`. -/
def capture_base_name (arguments : List String) : String :=
  if arguments.length > 2 then arguments.getD 2 "" else "video_capture"

/-- The camera number `main` computes from `arguments[1]`: 0 unless the
first character of the argument is a decimal digit. -/
def camera_number (lib : Library) (arguments : List String) : Nat :=
  let argument1 := arguments.getD 1 ""
  if lib.Character__is_decimal_digit (argument1.data.headD (Char.ofNat 0)) then
    lib.String__to_unsigned argument1
  else
    0

/-- The calls between the camera check and the loop. -/
def startup_events (camera_number : Nat) : List Event :=
  [Event.identifier_fetch camera_number, Event.connect,
   Event.camera_information, Event.capture_start, Event.images_create,
   Event.named_window]

/-- The function `main` of `Fly_Capture.c`.  `arguments` is the argument
vector, `arguments_size` its length.  The result is the calls performed and
the return code; the code is `none` while the video loop is still running
(the keys ran out before an [Esc]). -/
def main (lib : Library) (arguments : List String) (number_of_cameras : Nat)
    (keys : List Char) : List Event × Option Int :=
  if arguments.length ≤ 1 then
    ([Event.usage], some 1)
  else
    let base := capture_base_name arguments
    let number := camera_number lib arguments
    if number < number_of_cameras then
      let loop := video_loop lib base false 0 keys
      if loop.2 then
        ([Event.library_version, Event.camera_create] ++ startup_events number
          ++ loop.1 ++ [Event.destroy_window, Event.storage_release], some 0)
      else
        ([Event.library_version, Event.camera_create] ++ startup_events number
          ++ loop.1, none)
    else
      ([Event.library_version, Event.camera_create,
        Event.not_available number], some 0)

/-- The names of the files written, in order: the arguments of the
`CV__tga_write` calls of a run. -/
def files_written : List Event → List String
  | [] => []
  | Event.tga_write file_name :: events => file_name :: files_written events
  | _ :: events => files_written events

/-- Decimal digits of `n`, least significant first, by `fuel` divisions. -/
def decimal_digits : Nat → Nat → List Char
  | 0, _ => []
  | fuel + 1, n =>
    Char.ofNat (48 + n % 10) :: (if n / 10 = 0 then [] else decimal_digits fuel (n / 10))

/-- The text `printf` gives for the signed directive `%02d` when it is handed
the 32-bit value `n % 2 ^ 32`, as happens when an `Unsigned` is passed for it:
a value below `2 ^ 31` prints in decimal with at least two digits, and a value
from `2 ^ 31` on prints as the negative number `n % 2 ^ 32 - 2 ^ 32`. -/
def format_02d (n : Nat) : String :=
  let value := n % 2 ^ 32
  if value < 2 ^ 31 then
    let digits := (decimal_digits 20 value).reverse
    String.mk (if digits.length < 2 then Char.ofNat 48 :: digits else digits)
  else
    String.mk (Char.ofNat 45 :: (decimal_digits 20 (2 ^ 32 - value)).reverse)

/-- A library with the usual C behaviour on a platform with a 32-bit
`unsigned int` and `int`: `String__format` sees only the 32 bits of the
number it is passed and prints them through `%02d`. -/
def sample_library : Library where
  Character__is_decimal_digit := fun c => decide (48 ≤ c.toNat ∧ c.toNat ≤ 57)
  String__to_unsigned := fun s =>
    (s.data.takeWhile (fun c => decide (48 ≤ c.toNat ∧ c.toNat ≤ 57))).foldl
      (fun n c => (10 * n + (c.toNat - 48)) % 2 ^ 32) 0
  String__format := fun base n => base ++ "-" ++ format_02d n ++ ".tga"
  Unsigned__bits := 32

/-- Number of [space] keys before the first [Esc] key. -/
def spaces_before_escape (keys : List Char) : Nat :=
  (keys.takeWhile (fun c => decide (c ≠ escape_character))).count space_character

/-- The number of `CV__wait_key` calls among the given calls. -/
def wait_key_count : List Event → Nat
  | [] => 0
  | Event.wait_key _ :: events => wait_key_count events + 1
  | _ :: events => wait_key_count events

/-! ## Definitions: `Location.h` -/

/-- Modelled from the spec: `Double.h` is absent.  A `Double` is a finite
value or one of the non-finite ones (the spec: "finite (no NaN/Inf)").
Finite values are ordered as the numbers they denote. -/
inductive Double where
  | finite (value : ℚ)
  | positive_infinity
  | negative_infinity
  | not_a_number
  deriving DecidableEq

/-- The record `struct Location__Struct` of `Location.h`; an `Unsigned` field
is a natural number. -/
structure Location__Struct where
  goodness : Double
  id : Nat
  index : Nat
  bearing : Double
  x : Double
  y : Double
  deriving DecidableEq

/-- The error kinds of the spec. -/
inductive Error where
  | InvalidValue
  | NotFound
  deriving DecidableEq

/-- Modelled from the spec: `Bounding_Box.h` is absent.  The spec's Bounding
Region: either the empty state, "a distinguishable state, not a degenerate
rectangle", or min-x, max-x, min-y, max-y.  A region only ever receives
finite coordinates, so its attributes are finite values. -/
inductive Bounding_Box where
  | empty
  | extent (minimum_x maximum_x minimum_y maximum_y : ℚ)
  deriving DecidableEq

/-- Modelled from the spec: the Bounding Region operation `incorporate(region,
x, y)`: "widens region's min/max to include (x, y); if region was empty, sets
min=max=(x,y) on both axes"; "incorporating non-finite coordinates fails with
`InvalidValue` and leaves the region unchanged". -/
def Bounding_Box.incorporate (region : Bounding_Box) :
    Double → Double → Except Error Bounding_Box
  | Double.finite x, Double.finite y =>
    match region with
    | Bounding_Box.empty => Except.ok (Bounding_Box.extent x x y y)
    | Bounding_Box.extent minimum_x maximum_x minimum_y maximum_y =>
      Except.ok (Bounding_Box.extent (min minimum_x x) (max maximum_x x)
        (min minimum_y y) (max maximum_y y))
  | _, _ => Except.error Error.InvalidValue

/-- Modelled from the spec: `Location__bounding_box_update` is declared in
`Location.h` and defined in the absent `Location.c`.  It incorporates the
location's (x, y) into the bounding box.  The result is the bounding box after
the call: on `InvalidValue` the box is left as it was. -/
def Location__bounding_box_update (location : Location__Struct)
    (bounding_box : Bounding_Box) : Bounding_Box :=
  match bounding_box.incorporate location.x location.y with
  | Except.ok updated => updated
  | Except.error _ => bounding_box

/-- A sequence of `Location__bounding_box_update` calls on one bounding box,
first location first. -/
def bounding_box_updates (bounding_box : Bounding_Box) :
    List Location__Struct → Bounding_Box
  | [] => bounding_box
  | location :: locations =>
    bounding_box_updates (Location__bounding_box_update location bounding_box) locations

/-- The box's minimum is at most the point and its maximum at least the
point, on both axes. -/
def Bounding_Box.encloses : Bounding_Box → ℚ → ℚ → Prop
  | Bounding_Box.empty, _, _ => False
  | Bounding_Box.extent minimum_x maximum_x minimum_y maximum_y, x, y =>
    minimum_x ≤ x ∧ x ≤ maximum_x ∧ minimum_y ≤ y ∧ y ≤ maximum_y

/-- The second box is the first one or a widening of it: no minimum is
larger and no maximum smaller, and a box with an extent stays one. -/
def Bounding_Box.widens_to : Bounding_Box → Bounding_Box → Prop
  | Bounding_Box.empty, _ => True
  | Bounding_Box.extent _ _ _ _, Bounding_Box.empty => False
  | Bounding_Box.extent a0 a1 b0 b1, Bounding_Box.extent c0 c1 d0 d1 =>
    c0 ≤ a0 ∧ a1 ≤ c1 ∧ d0 ≤ b0 ∧ b1 ≤ d1

instance (box : Bounding_Box) (x y : ℚ) : Decidable (box.encloses x y) := by
  cases box <;> unfold Bounding_Box.encloses <;> infer_instance

instance (a b : Bounding_Box) : Decidable (a.widens_to b) := by
  cases a <;> cases b <;> unfold Bounding_Box.widens_to <;> infer_instance

/-- A `Location` is a pointer to a `Location__Struct`: an address of the store. -/
abbrev Location := Nat

/-- Modelled from the spec: the storage behind `Location` pointers
(`Memory.h` is absent).  Address `i` holds the `i`-th allocated record, or
nothing once it is released. -/
abbrev Store := List (Option Location__Struct)

/-- Modelled from the spec: `Location__copy` is declared in `Location.h` and
defined in the absent `Location.c`.  It "produces an independent deep copy; no
aliasing with the source": a newly allocated record with the fields of the
source.  The result is the store after the call and the new pointer; there is
none when `location` does not point to a live record. -/
def Location__copy (store : Store) (location : Location) : Option (Store × Location) :=
  match store[location]? with
  | some (some source) => some (store ++ [some source], store.length)
  | _ => none

/-- Assignment of a whole record through a pointer; assigning one field is
the case where the other fields keep their values. -/
def Store.assign (store : Store) (location : Location) (value : Location__Struct) :
    Store :=
  store.set location (some value)

/-! ## Lemmas on the video loop and on `main` -/

theorem files_written_append (a b : List Event) :
    files_written (a ++ b) = files_written a ++ files_written b := by
  induction a with
  | nil => rfl
  | cons e a ih => cases e <;> simp [files_written, ih]

theorem files_written_iteration_events (d : Bool) (c : Char) :
    files_written (iteration_events d c) = [] := by
  cases d <;> rfl

theorem space_ne_escape : space_character ≠ escape_character := by decide

theorem video_loop_nil (lib : Library) (base : String) (d : Bool) (n : Nat) :
    video_loop lib base d n [] = ([], false) := rfl

theorem video_loop_escape (lib : Library) (base : String) (d : Bool) (n : Nat)
    (keys : List Char) :
    video_loop lib base d n (escape_character :: keys)
      = (iteration_events d escape_character, true) := by
  simp [video_loop]

theorem video_loop_space (lib : Library) (base : String) (d : Bool) (n : Nat)
    (keys : List Char) :
    video_loop lib base d n (space_character :: keys)
      = (iteration_events d space_character
          ++ [Event.tga_write (lib.String__format base n),
              Event.wrote_message (lib.String__format base n)]
          ++ (video_loop lib base true (capture_number_next lib n) keys).1,
         (video_loop lib base true (capture_number_next lib n) keys).2) := by
  simp [video_loop, space_ne_escape]

theorem video_loop_other (lib : Library) (base : String) (d : Bool) (n : Nat)
    (c : Char) (keys : List Char) (h1 : c ≠ escape_character)
    (h2 : c ≠ space_character) :
    video_loop lib base d n (c :: keys)
      = (iteration_events d c ++ (video_loop lib base true n keys).1,
         (video_loop lib base true n keys).2) := by
  simp [video_loop, h1, h2]

/-- The files the loop writes: one per [space] before the first [Esc],
numbered from the current `capture_number` with `Unsigned` increments. -/
theorem files_written_video_loop (lib : Library) (base : String)
    (keys : List Char) : ∀ (d : Bool) (n : Nat), n < 2 ^ lib.Unsigned__bits →
    files_written (video_loop lib base d n keys).1
      = (List.range (spaces_before_escape keys)).map
          (fun k => lib.String__format base ((n + k) % 2 ^ lib.Unsigned__bits)) := by
  induction keys with
  | nil => intro d n _; rfl
  | cons c keys ih =>
    intro d n hn
    by_cases h1 : c = escape_character
    · subst h1
      simp [video_loop_escape, files_written_iteration_events, spaces_before_escape]
    · by_cases h2 : c = space_character
      · subst h2
        have hlt : capture_number_next lib n < 2 ^ lib.Unsigned__bits :=
          Nat.mod_lt _ (Nat.pos_pow_of_pos _ (by decide))
        have hcount : spaces_before_escape (space_character :: keys)
            = spaces_before_escape keys + 1 := by
          simp [spaces_before_escape, List.takeWhile_cons, space_ne_escape]
        have hw : files_written [Event.tga_write (lib.String__format base n),
            Event.wrote_message (lib.String__format base n)]
            = [lib.String__format base n] := rfl
        rw [video_loop_space, hcount, List.range_succ_eq_map]
        simp only [files_written_append, files_written_iteration_events, hw,
          ih true _ hlt, List.nil_append, List.map_cons, List.map_map,
          List.singleton_append, Nat.add_zero, Nat.mod_eq_of_lt hn]
        congr 1
        apply List.map_congr_left
        intro k _
        simp only [Function.comp, capture_number_next, Nat.mod_add_mod]
        congr 2
        omega
      · have hcount : spaces_before_escape (c :: keys) = spaces_before_escape keys := by
          simp [spaces_before_escape, List.takeWhile_cons, h1, List.count_cons]
          intro h; exact absurd h h2
        rw [video_loop_other lib base d n c keys h1 h2, hcount]
        simp only [files_written_append, files_written_iteration_events,
          ih true n hn, List.nil_append]

/-- The loop on keys without an [Esc] is still running when they run out. -/
theorem video_loop_running (lib : Library) (base : String) (keys : List Char) :
    ∀ (d : Bool) (n : Nat), escape_character ∉ keys →
      (video_loop lib base d n keys).2 = false := by
  induction keys with
  | nil => intro d n _; rfl
  | cons c keys ih =>
    intro d n h
    have h1 : c ≠ escape_character := fun e => h (e ▸ List.mem_cons_self _ _)
    have h3 : escape_character ∉ keys := fun m => h (List.mem_cons_of_mem _ m)
    by_cases h2 : c = space_character
    · subst h2
      rw [video_loop_space]
      exact ih true _ h3
    · rw [video_loop_other lib base d n c keys h1 h2]
      exact ih true _ h3

/-- The loop never reads a key after the first [Esc]: on `before` (without
[Esc]) followed by [Esc] and anything, it performs the calls of the
iterations for `before`, then the calls of one more iteration up to the
`CV__wait_key` that returns [Esc], and leaves through `break`. -/
theorem video_loop_until_escape (lib : Library) (base : String)
    (before after : List Char) :
    ∀ (d : Bool) (n : Nat), escape_character ∉ before →
      video_loop lib base d n (before ++ escape_character :: after)
        = ((video_loop lib base d n before).1
            ++ iteration_events (d || !before.isEmpty) escape_character, true) := by
  induction before with
  | nil =>
    intro d n _
    simp [video_loop_escape, video_loop_nil]
  | cons c keys ih =>
    intro d n h
    have h1 : c ≠ escape_character := fun e => h (e ▸ List.mem_cons_self _ _)
    have h3 : escape_character ∉ keys := fun m => h (List.mem_cons_of_mem _ m)
    by_cases h2 : c = space_character
    · subst h2
      rw [List.cons_append, video_loop_space, video_loop_space, ih true _ h3]
      simp
    · rw [List.cons_append, video_loop_other lib base d n c _ h1 h2,
        video_loop_other lib base d n c _ h1 h2, ih true _ h3]
      simp

/-- No `CV__wait_key` of the iterations for keys without an [Esc] returns
[Esc]. -/
theorem wait_key_escape_not_mem_video_loop (lib : Library) (base : String)
    (keys : List Char) :
    ∀ (d : Bool) (n : Nat), escape_character ∉ keys →
      Event.wait_key escape_character ∉ (video_loop lib base d n keys).1 := by
  induction keys with
  | nil => intro d n _; simp [video_loop_nil]
  | cons c keys ih =>
    intro d n h
    have h1 : c ≠ escape_character := fun e => h (e ▸ List.mem_cons_self _ _)
    have h3 : escape_character ∉ keys := fun m => h (List.mem_cons_of_mem _ m)
    have h4 : Event.wait_key escape_character ∉ iteration_events d c := by
      cases d <;> simp [iteration_events, Ne.symm h1]
    by_cases h2 : c = space_character
    · subst h2
      rw [video_loop_space]
      simp [h4, ih true _ h3]
    · rw [video_loop_other lib base d n c keys h1 h2]
      simp [h4, ih true _ h3]

/-- Whether the loop is left depends only on whether an [Esc] is among the
keys. -/
theorem video_loop_snd (lib : Library) (base : String) (keys : List Char) :
    ∀ (d : Bool) (n : Nat),
      (video_loop lib base d n keys).2 = decide (escape_character ∈ keys) := by
  induction keys with
  | nil => intro d n; simp [video_loop_nil]
  | cons c keys ih =>
    intro d n
    by_cases h1 : c = escape_character
    · subst h1; simp [video_loop_escape]
    · by_cases h2 : c = space_character
      · subst h2
        rw [video_loop_space]
        simp [ih, Ne.symm h1]
      · rw [video_loop_other lib base d n c keys h1 h2]
        simp [ih, Ne.symm h1]

theorem spaces_before_escape_other (before after : List Char) (c : Char)
    (h1 : c ≠ escape_character) (h2 : c ≠ space_character) :
    spaces_before_escape (before ++ c :: after)
      = spaces_before_escape (before ++ after) := by
  induction before with
  | nil =>
    simp [spaces_before_escape, List.takeWhile_cons, h1, List.count_cons]
    intro h; exact absurd h h2
  | cons b before ih =>
    unfold spaces_before_escape at ih ⊢
    by_cases hb : b = escape_character
    · simp [List.takeWhile_cons, hb]
    · simp only [decide_not] at ih
      simp [List.takeWhile_cons, hb, List.count_cons, ih]

/-- The run of `main` when a camera argument is given and the camera is
available. -/
theorem main_of_camera (lib : Library) (arguments : List String) (cameras : Nat)
    (keys : List Char) (h1 : 2 ≤ arguments.length)
    (h2 : camera_number lib arguments < cameras) :
    main lib arguments cameras keys
      = if (video_loop lib (capture_base_name arguments) false 0 keys).2 then
          ([Event.library_version, Event.camera_create]
            ++ startup_events (camera_number lib arguments)
            ++ (video_loop lib (capture_base_name arguments) false 0 keys).1
            ++ [Event.destroy_window, Event.storage_release], some 0)
        else
          ([Event.library_version, Event.camera_create]
            ++ startup_events (camera_number lib arguments)
            ++ (video_loop lib (capture_base_name arguments) false 0 keys).1, none) := by
  have h3 : ¬ arguments.length ≤ 1 := by omega
  simp only [main, h3, h2, if_true, if_false]

/-- The files written by any run of `main` are those of its video loop, if
it gets there. -/
theorem files_written_main (lib : Library) (arguments : List String) (cameras : Nat)
    (keys : List Char) :
    files_written (main lib arguments cameras keys).1 = [] ∨
    files_written (main lib arguments cameras keys).1
      = (List.range (spaces_before_escape keys)).map
          (fun k => lib.String__format (capture_base_name arguments)
            (k % 2 ^ lib.Unsigned__bits)) := by
  by_cases h1 : arguments.length ≤ 1
  · left; simp [main, h1, files_written]
  · by_cases h2 : camera_number lib arguments < cameras
    · right
      have h0 : 0 < 2 ^ lib.Unsigned__bits := Nat.pos_pow_of_pos _ (by decide)
      have hf := files_written_video_loop lib (capture_base_name arguments) keys false 0 h0
      simp only [Nat.zero_add] at hf
      rw [main_of_camera lib arguments cameras keys (by omega) h2]
      split <;>
        simp [files_written_append, hf, startup_events, files_written]
    · left; simp [main, h1, h2, files_written]

theorem files_written_main_of_camera (lib : Library) (arguments : List String)
    (cameras : Nat) (keys : List Char) (h1 : 2 ≤ arguments.length)
    (h2 : camera_number lib arguments < cameras) :
    files_written (main lib arguments cameras keys).1
      = (List.range (spaces_before_escape keys)).map
          (fun k => lib.String__format (capture_base_name arguments)
            (k % 2 ^ lib.Unsigned__bits)) := by
  have h0 : 0 < 2 ^ lib.Unsigned__bits := Nat.pos_pow_of_pos _ (by decide)
  have hf := files_written_video_loop lib (capture_base_name arguments) keys false 0 h0
  simp only [Nat.zero_add] at hf
  rw [main_of_camera lib arguments cameras keys h1 h2]
  split <;> simp [files_written_append, hf, startup_events, files_written]


theorem wait_key_count_append (a b : List Event) :
    wait_key_count (a ++ b) = wait_key_count a + wait_key_count b := by
  induction a with
  | nil => simp [wait_key_count]
  | cons e a ih =>
    cases e <;> simp [wait_key_count, ih]
    omega

theorem wait_key_count_iteration_events (d : Bool) (c : Char) :
    wait_key_count (iteration_events d c) = 1 := by
  cases d <;> rfl

/-- Every completed iteration calls `CV__wait_key` once. -/
theorem wait_key_count_video_loop (lib : Library) (base : String) (keys : List Char) :
    ∀ (d : Bool) (n : Nat), escape_character ∉ keys →
      wait_key_count (video_loop lib base d n keys).1 = keys.length := by
  induction keys with
  | nil => intro d n _; rfl
  | cons c keys ih =>
    intro d n h
    have h1 : c ≠ escape_character := fun e => h (e ▸ List.mem_cons_self _ _)
    have h3 : escape_character ∉ keys := fun m => h (List.mem_cons_of_mem _ m)
    by_cases h2 : c = space_character
    · subst h2
      have e : wait_key_count [Event.tga_write (lib.String__format base n),
          Event.wrote_message (lib.String__format base n)] = 0 := rfl
      rw [video_loop_space]
      simp only [wait_key_count_append, wait_key_count_iteration_events, ih true _ h3, e,
        List.length_cons]
      omega
    · rw [video_loop_other lib base d n c keys h1 h2]
      simp only [wait_key_count_append, wait_key_count_iteration_events, ih true _ h3,
        List.length_cons]
      omega

/-- The return code of `main` once it runs the video loop: 0 when an [Esc]
arrives, none while the loop is still running. -/
theorem main_snd_of_camera (lib : Library) (arguments : List String) (cameras : Nat)
    (keys : List Char) (h1 : 2 ≤ arguments.length)
    (h2 : camera_number lib arguments < cameras) :
    (main lib arguments cameras keys).2
      = if escape_character ∈ keys then some 0 else none := by
  rw [main_of_camera lib arguments cameras keys h1 h2, video_loop_snd]
  by_cases h : escape_character ∈ keys <;> simp [h]

/-- After `k` increments from 0 an `Unsigned` holds `k` modulo 2 to its
width. -/
theorem capture_number_next_iterate (lib : Library) (k : Nat) :
    (capture_number_next lib)^[k] 0 = k % 2 ^ lib.Unsigned__bits := by
  induction k with
  | zero =>
    exact (Nat.mod_eq_of_lt (Nat.pos_pow_of_pos _ (by decide))).symm
  | succ k ih =>
    rw [Function.iterate_succ_apply', ih]
    exact Nat.mod_add_mod k _ 1

/-- The sample `String__format` sees only the 32 bits of its number. -/
theorem sample_library_format_mod (base : String) (n : Nat) :
    sample_library.String__format base n
      = sample_library.String__format base (n % 2 ^ sample_library.Unsigned__bits) := by
  show base ++ "-" ++ format_02d n ++ ".tga"
    = base ++ "-" ++ format_02d (n % 2 ^ 32) ++ ".tga"
  have h : format_02d (n % 2 ^ 32) = format_02d n := by
    unfold format_02d
    simp only [Nat.mod_mod]
  rw [h]

/-! ## Lemmas on bounding boxes -/

theorem Bounding_Box.widens_to_refl (a : Bounding_Box) : a.widens_to a := by
  cases a <;> simp [Bounding_Box.widens_to]

theorem Bounding_Box.widens_to_trans (a b c : Bounding_Box)
    (h1 : a.widens_to b) (h2 : b.widens_to c) : a.widens_to c := by
  cases a <;> cases b <;> cases c <;> simp_all [Bounding_Box.widens_to]
  obtain ⟨p1, p2, p3, p4⟩ := h1
  obtain ⟨q1, q2, q3, q4⟩ := h2
  exact ⟨le_trans q1 p1, le_trans p2 q2, le_trans q3 p3, le_trans p4 q4⟩

theorem Bounding_Box.encloses_of_widens_to (a b : Bounding_Box) (x y : ℚ)
    (h1 : a.widens_to b) (h2 : a.encloses x y) : b.encloses x y := by
  cases a <;> cases b <;> simp_all [Bounding_Box.widens_to, Bounding_Box.encloses]
  obtain ⟨p1, p2, p3, p4⟩ := h1
  obtain ⟨q1, q2, q3, q4⟩ := h2
  exact ⟨le_trans p1 q1, le_trans q2 p2, le_trans p3 q3, le_trans q4 p4⟩

/-- One update never shrinks the box. -/
theorem Location__bounding_box_update_widens (location : Location__Struct)
    (box : Bounding_Box) :
    box.widens_to (Location__bounding_box_update location box) := by
  unfold Location__bounding_box_update Bounding_Box.incorporate
  cases hx : location.x <;> cases hy : location.y <;> cases box <;>
    simp [Bounding_Box.widens_to]

/-- One update with finite coordinates makes the box enclose them. -/
theorem Location__bounding_box_update_encloses (location : Location__Struct)
    (box : Bounding_Box) (x y : ℚ) (hx : location.x = Double.finite x)
    (hy : location.y = Double.finite y) :
    (Location__bounding_box_update location box).encloses x y := by
  unfold Location__bounding_box_update Bounding_Box.incorporate
  rw [hx, hy]
  cases box <;> simp [Bounding_Box.encloses]

theorem bounding_box_updates_widens (locations : List Location__Struct) :
    ∀ box : Bounding_Box, box.widens_to (bounding_box_updates box locations) := by
  induction locations with
  | nil => intro box; exact Bounding_Box.widens_to_refl box
  | cons l ls ih =>
    intro box
    exact Bounding_Box.widens_to_trans _ _ _
      (Location__bounding_box_update_widens l box) (ih _)

theorem bounding_box_updates_append (earlier later : List Location__Struct) :
    ∀ box : Bounding_Box, bounding_box_updates box (earlier ++ later)
      = bounding_box_updates (bounding_box_updates box earlier) later := by
  induction earlier with
  | nil => intro box; rfl
  | cons l ls ih => intro box; exact ih _

theorem bounding_box_updates_encloses (locations : List Location__Struct) :
    ∀ box : Bounding_Box, ∀ l ∈ locations, ∀ x y : ℚ,
      l.x = Double.finite x → l.y = Double.finite y →
        (bounding_box_updates box locations).encloses x y := by
  induction locations with
  | nil => intro box l hl; simp at hl
  | cons l0 ls ih =>
    intro box l hl x y hx hy
    rcases List.mem_cons.mp hl with h | h
    · subst h
      exact Bounding_Box.encloses_of_widens_to _ _ x y
        (bounding_box_updates_widens ls _)
        (Location__bounding_box_update_encloses l box x y hx hy)
    · exact ih _ l h x y hx hy

/-! ## The claims -/

/-- C1 (the code departs from its documented return value): with a camera
argument `"5"` and one connected camera, `main` prints that camera 5 is not
available, never enters the video loop, and still returns 0, although its
documentation promises 1 for failure. -/
theorem main_returns_zero_when_camera_not_available :
    main sample_library ["Fly_Capture", "5"] 1 [space_character, escape_character]
      = ([Event.library_version, Event.camera_create, Event.not_available 5],
         some 0) := by
  decide

/-- C2 (the code departs from its documentation): with the first argument
`"movie.avi"`, which does not begin with a decimal digit, `main` opens no
video file; it fetches, connects to and displays camera number 0. -/
theorem main_opens_camera_zero_for_file_argument :
    main sample_library ["Fly_Capture", "movie.avi"] 1 [escape_character]
      = ([Event.library_version, Event.camera_create, Event.identifier_fetch 0,
          Event.connect, Event.camera_information, Event.capture_start,
          Event.images_create, Event.named_window, Event.image_retrieve,
          Event.image_convert, Event.display_image_create, Event.image_show,
          Event.wait_key escape_character, Event.destroy_window,
          Event.storage_release], some 0) := by
  decide

/-- C3: when `main` runs the video loop, it writes one file per [space] key
before the first [Esc] key, and the file at position `k` (counting from 0) is
named by `String__format("%s-%02d.tga", ...)` with the capture base name and
the value `capture_number` has after `k` increments `capture_number += 1`
from 0: `capture_number` starts at 0 and goes up by one per file written and
by nothing else.  `String__format` is passed that number as an `Unsigned`; for
a `String__format` that reads its number as an `Unsigned` (it gives the same
text for numbers equal modulo 2 to the width of `Unsigned`), the name at
position `k` is `String__format` of the base name and `k` itself. -/
theorem files_written_by_main (lib : Library) (arguments : List String)
    (cameras : Nat) (keys : List Char) (h1 : 2 ≤ arguments.length)
    (h2 : camera_number lib arguments < cameras) :
    (files_written (main lib arguments cameras keys).1).length
        = spaces_before_escape keys
    ∧ files_written (main lib arguments cameras keys).1
        = (List.range (spaces_before_escape keys)).map
            (fun k => lib.String__format (capture_base_name arguments)
              ((capture_number_next lib)^[k] 0))
    ∧ ((∀ (base : String) (n : Nat), lib.String__format base n
          = lib.String__format base (n % 2 ^ lib.Unsigned__bits)) →
        files_written (main lib arguments cameras keys).1
          = (List.range (spaces_before_escape keys)).map
              (fun k => lib.String__format (capture_base_name arguments) k)) := by
  have hf := files_written_main_of_camera lib arguments cameras keys h1 h2
  refine ⟨by rw [hf]; simp, ?_, fun hmod => ?_⟩
  · rw [hf]
    apply List.map_congr_left
    intro k _
    rw [capture_number_next_iterate]
  · rw [hf]
    apply List.map_congr_left
    intro k _
    exact (hmod _ k).symm

theorem files_written_by_main_witness :
    (2 ≤ ["Fly_Capture", "0", "shot"].length
      ∧ camera_number sample_library ["Fly_Capture", "0", "shot"] < 1
      ∧ ∀ (base : String) (n : Nat), sample_library.String__format base n
          = sample_library.String__format base (n % 2 ^ sample_library.Unsigned__bits))
    ∧ files_written (main sample_library ["Fly_Capture", "0", "shot"] 1
          [space_character, Char.ofNat 97, space_character, escape_character,
           space_character]).1
        = ["shot-00.tga", "shot-01.tga"]
    ∧ files_written (main sample_library ["Fly_Capture", "0", "shot"] 1
          [space_character, Char.ofNat 97, space_character, escape_character,
           space_character]).1
        = (List.range (spaces_before_escape
            [space_character, Char.ofNat 97, space_character, escape_character,
             space_character])).map
          (fun k => sample_library.String__format
            (capture_base_name ["Fly_Capture", "0", "shot"]) k)
    ∧ sample_library.String__format "video_capture" 2147483647
        = "video_capture-2147483647.tga"
    ∧ sample_library.String__format "video_capture" 2147483648
        = "video_capture--2147483648.tga" :=
  ⟨⟨by decide, by decide, sample_library_format_mod⟩, by decide,
   (files_written_by_main sample_library ["Fly_Capture", "0", "shot"] 1
      [space_character, Char.ofNat 97, space_character, escape_character,
       space_character] (by decide) (by decide)).2.2 sample_library_format_mod,
   by decide, by decide⟩

/-- C4: with exactly one argument after the program name every file `main`
writes is named by `String__format` with the base name `"video_capture"`,
and with two or more every file is named with `arguments[2]` as the base
name. -/
theorem capture_base_name_of_files (lib : Library) (arguments : List String)
    (cameras : Nat) (keys : List Char) :
    (arguments.length = 2 → ∀ (i : Nat) (name : String),
      (files_written (main lib arguments cameras keys).1)[i]? = some name →
        name = lib.String__format "video_capture" (i % 2 ^ lib.Unsigned__bits))
    ∧ (∀ h : 2 < arguments.length, ∀ (i : Nat) (name : String),
      (files_written (main lib arguments cameras keys).1)[i]? = some name →
        name = lib.String__format arguments[2] (i % 2 ^ lib.Unsigned__bits)) := by
  have key : ∀ (i : Nat) (name : String),
      (files_written (main lib arguments cameras keys).1)[i]? = some name →
        name = lib.String__format (capture_base_name arguments)
          (i % 2 ^ lib.Unsigned__bits) := by
    intro i name h
    rcases files_written_main lib arguments cameras keys with h0 | h0
    · rw [h0] at h; simp at h
    · rw [h0, List.getElem?_map] at h
      by_cases hi : i < spaces_before_escape keys
      · rw [List.getElem?_range hi] at h
        simpa using h.symm
      · rw [List.getElem?_eq_none (by simpa using hi)] at h
        simp at h
  constructor
  · intro h i name hn
    have := key i name hn
    simpa [capture_base_name, h] using this
  · intro h i name hn
    have := key i name hn
    simpa [capture_base_name, h, List.getD_eq_getElem?_getD,
      List.getElem?_eq_getElem h] using this

theorem capture_base_name_of_files_witness :
    (files_written (main sample_library ["Fly_Capture", "0"] 1
        [space_character, escape_character]).1 = ["video_capture-00.tga"]
      ∧ ∀ (i : Nat) (name : String),
        (files_written (main sample_library ["Fly_Capture", "0"] 1
          [space_character, escape_character]).1)[i]? = some name →
          name = sample_library.String__format "video_capture" (i % 2 ^ 32))
    ∧ (files_written (main sample_library ["Fly_Capture", "0", "shot", "more"] 1
        [space_character, escape_character]).1 = ["shot-00.tga"]
      ∧ ∀ (i : Nat) (name : String),
        (files_written (main sample_library ["Fly_Capture", "0", "shot", "more"] 1
          [space_character, escape_character]).1)[i]? = some name →
          name = sample_library.String__format "shot" (i % 2 ^ 32)) :=
  ⟨⟨by decide, (capture_base_name_of_files sample_library ["Fly_Capture", "0"] 1
      [space_character, escape_character]).1 (by decide)⟩,
   ⟨by decide, (capture_base_name_of_files sample_library
      ["Fly_Capture", "0", "shot", "more"] 1
      [space_character, escape_character]).2 (by decide)⟩⟩

/-- C5: when `main` runs the video loop on keys `before` (without [Esc]),
then [Esc], then any keys `after`: the keys after the first [Esc] are never
read; `main` returns 0; the `CV__wait_key` call returning [Esc] is the one of
iteration number `before.length` and is followed by nothing but the window
and storage release (no frame is retrieved, shown or written after it); and a
key that is neither [Esc] nor [space] leaves the files written and the return
code as they are without it, the loop going on to its next iteration with
the same `capture_number` and no file written in between. -/
theorem escape_leaves_video_loop (lib : Library) (arguments : List String)
    (cameras : Nat) (before after : List Char) (h1 : 2 ≤ arguments.length)
    (h2 : camera_number lib arguments < cameras)
    (h3 : escape_character ∉ before) :
    main lib arguments cameras (before ++ escape_character :: after)
        = main lib arguments cameras (before ++ [escape_character])
    ∧ (main lib arguments cameras (before ++ escape_character :: after)).2 = some 0
    ∧ (∃ events : List Event,
        (main lib arguments cameras (before ++ escape_character :: after)).1
          = events ++ [Event.wait_key escape_character, Event.destroy_window,
              Event.storage_release]
        ∧ Event.wait_key escape_character ∉ events
        ∧ wait_key_count events = before.length)
    ∧ (∀ c : Char, c ≠ escape_character → c ≠ space_character →
        (∀ (d : Bool) (n : Nat) (keys : List Char),
          video_loop lib (capture_base_name arguments) d n (c :: keys)
            = (iteration_events d c
                ++ (video_loop lib (capture_base_name arguments) true n keys).1,
               (video_loop lib (capture_base_name arguments) true n keys).2)
          ∧ files_written (iteration_events d c) = [])
        ∧ ∀ l r : List Char,
          files_written (main lib arguments cameras (l ++ c :: r)).1
              = files_written (main lib arguments cameras (l ++ r)).1
          ∧ (main lib arguments cameras (l ++ c :: r)).2
              = (main lib arguments cameras (l ++ r)).2) := by
  have hloop := fun after => video_loop_until_escape lib (capture_base_name arguments)
    before after false 0 h3
  have hmain : ∀ after, main lib arguments cameras (before ++ escape_character :: after)
      = ([Event.library_version, Event.camera_create]
          ++ startup_events (camera_number lib arguments)
          ++ ((video_loop lib (capture_base_name arguments) false 0 before).1
            ++ iteration_events (false || !before.isEmpty) escape_character)
          ++ [Event.destroy_window, Event.storage_release], some 0) := by
    intro after
    rw [main_of_camera lib arguments cameras _ h1 h2, hloop after]
    simp
  refine ⟨by rw [hmain after, hmain []], by rw [hmain after], ?_, ?_⟩
  · refine ⟨[Event.library_version, Event.camera_create]
          ++ startup_events (camera_number lib arguments)
          ++ (video_loop lib (capture_base_name arguments) false 0 before).1
          ++ ([Event.image_retrieve, Event.image_convert]
            ++ (if (false || !before.isEmpty) then [] else [Event.display_image_create])
            ++ [Event.image_show]), ?_, ?_, ?_⟩
    · rw [hmain after]
      simp [iteration_events, List.append_assoc]
    · have := wait_key_escape_not_mem_video_loop lib (capture_base_name arguments)
        before false 0 h3
      simp only [List.mem_append, not_or]
      refine ⟨⟨⟨by simp, by simp [startup_events]⟩, this⟩, ?_⟩
      split <;> simp
    · have := wait_key_count_video_loop lib (capture_base_name arguments)
        before false 0 h3
      simp only [wait_key_count_append, this]
      have e1 : wait_key_count ([Event.library_version, Event.camera_create]) = 0 := rfl
      have e2 : wait_key_count (startup_events (camera_number lib arguments)) = 0 := rfl
      have e3 : wait_key_count [Event.image_retrieve, Event.image_convert] = 0 := rfl
      have e4 : wait_key_count [Event.image_show] = 0 := rfl
      have e5 : wait_key_count
          (if (false || !before.isEmpty) then [] else [Event.display_image_create]) = 0 := by
        split <;> rfl
      omega
  · intro c hc1 hc2
    refine ⟨fun d n keys => ⟨video_loop_other lib _ d n c keys hc1 hc2,
      files_written_iteration_events d c⟩, fun l r => ⟨?_, ?_⟩⟩
    · rw [files_written_main_of_camera lib arguments cameras _ h1 h2,
        files_written_main_of_camera lib arguments cameras _ h1 h2,
        spaces_before_escape_other l r c hc1 hc2]
    · rw [main_snd_of_camera lib arguments cameras _ h1 h2,
        main_snd_of_camera lib arguments cameras _ h1 h2]
      simp [Ne.symm hc1]

theorem escape_leaves_video_loop_witness :
    (2 ≤ ["Fly_Capture", "0"].length
      ∧ camera_number sample_library ["Fly_Capture", "0"] < 1
      ∧ escape_character ∉ [space_character, Char.ofNat 97])
    ∧ main sample_library ["Fly_Capture", "0"] 1
        ([space_character, Char.ofNat 97] ++ escape_character :: [space_character])
      = main sample_library ["Fly_Capture", "0"] 1
        ([space_character, Char.ofNat 97] ++ [escape_character])
    ∧ files_written (main sample_library ["Fly_Capture", "0"] 1
        ([space_character, Char.ofNat 97] ++ escape_character :: [space_character])).1
      = ["video_capture-00.tga"] :=
  ⟨by decide,
   (escape_leaves_video_loop sample_library ["Fly_Capture", "0"] 1
      [space_character, Char.ofNat 97] [space_character]
      (by decide) (by decide) (by decide)).1,
   by decide⟩

/-- C6 (monotonic bounding): start from any bounding box and pass the
locations `earlier`, then the locations `later`, to
`Location__bounding_box_update`.  After the updates for `earlier` the box has
minimum x at most and maximum x at least the x of every location of `earlier`
that was incorporated (finite coordinates), and the same for y; and the
later updates never shrink the box: it stays a widening of the box after
`earlier`, which is a widening of the box at the start. -/
theorem bounding_box_update_monotonic (box : Bounding_Box)
    (earlier later : List Location__Struct) :
    (∀ l ∈ earlier, ∀ x y : ℚ, l.x = Double.finite x → l.y = Double.finite y →
        (bounding_box_updates box earlier).encloses x y
        ∧ (bounding_box_updates box (earlier ++ later)).encloses x y)
    ∧ box.widens_to (bounding_box_updates box earlier)
    ∧ (bounding_box_updates box earlier).widens_to
        (bounding_box_updates box (earlier ++ later)) := by
  have hw : (bounding_box_updates box earlier).widens_to
      (bounding_box_updates box (earlier ++ later)) := by
    rw [bounding_box_updates_append]
    exact bounding_box_updates_widens later _
  refine ⟨fun l hl x y hx hy => ?_, bounding_box_updates_widens earlier box, hw⟩
  have h := bounding_box_updates_encloses earlier box l hl x y hx hy
  exact ⟨h, Bounding_Box.encloses_of_widens_to _ _ x y hw h⟩

theorem bounding_box_update_monotonic_witness :
    bounding_box_updates Bounding_Box.empty
        [⟨Double.finite (1 / 2), 3, 0, Double.finite 0, Double.finite 1, Double.finite 2⟩,
         ⟨Double.finite (1 / 4), 3, 1, Double.finite 0, Double.not_a_number, Double.finite 9⟩,
         ⟨Double.finite (1 / 4), 3, 2, Double.finite 0, Double.finite (5 / 4), Double.finite (-1)⟩]
      = Bounding_Box.extent 1 (5 / 4) (-1) 2
    ∧ (bounding_box_updates Bounding_Box.empty
        [⟨Double.finite (1 / 2), 3, 0, Double.finite 0, Double.finite 1, Double.finite 2⟩]).encloses
          1 2
    ∧ (bounding_box_updates Bounding_Box.empty
        ([⟨Double.finite (1 / 2), 3, 0, Double.finite 0, Double.finite 1, Double.finite 2⟩]
          ++ [⟨Double.finite (1 / 4), 3, 2, Double.finite 0, Double.finite (5 / 4),
               Double.finite (-1)⟩])).encloses 1 2 :=
  ⟨by norm_num [bounding_box_updates, Location__bounding_box_update,
      Bounding_Box.incorporate],
   (bounding_box_update_monotonic Bounding_Box.empty
      [⟨Double.finite (1 / 2), 3, 0, Double.finite 0, Double.finite 1, Double.finite 2⟩]
      [⟨Double.finite (1 / 4), 3, 2, Double.finite 0, Double.finite (5 / 4),
        Double.finite (-1)⟩]).1
      ⟨Double.finite (1 / 2), 3, 0, Double.finite 0, Double.finite 1, Double.finite 2⟩
      (List.mem_singleton.mpr rfl) 1 2 rfl rfl⟩

/-- C7 (copy independence): for every pointer to a live record,
`Location__copy` returns a pointer to a record whose goodness, id, index,
bearing, x and y equal the source's; the source record is untouched by the
call; and whatever is assigned to the copy afterwards, the source record keeps
all its fields. -/
theorem Location__copy_independent (store : Store) (location : Location)
    (source : Location__Struct) (h : store[location]? = some (some source)) :
    ∃ (store1 : Store) (copy : Location) (copied : Location__Struct),
      Location__copy store location = some (store1, copy)
      ∧ store1[copy]? = some (some copied)
      ∧ copied.goodness = source.goodness ∧ copied.id = source.id
      ∧ copied.index = source.index ∧ copied.bearing = source.bearing
      ∧ copied.x = source.x ∧ copied.y = source.y
      ∧ copy ≠ location
      ∧ store1[location]? = some (some source)
      ∧ ∀ value : Location__Struct,
          (store1.assign copy value)[location]? = some (some source)
          ∧ (store1.assign copy value)[copy]? = some (some value) := by
  have hlt : location < store.length := by
    rcases Nat.lt_or_ge location store.length with h1 | h1
    · exact h1
    · rw [List.getElem?_eq_none h1] at h
      exact Option.noConfusion h
  have hne : store.length ≠ location := Nat.ne_of_gt hlt
  refine ⟨store ++ [some source], store.length, source, ?_, ?_, rfl, rfl, rfl, rfl, rfl,
    rfl, hne, ?_, fun value => ⟨?_, ?_⟩⟩
  · simp [Location__copy, h]
  · simp
  · rw [List.getElem?_append_left hlt]; exact h
  · unfold Store.assign
    rw [List.getElem?_set_ne hne, List.getElem?_append_left hlt]
    exact h
  · unfold Store.assign
    simp

theorem Location__copy_independent_witness :
    Location__copy [some ⟨Double.finite (1 / 2), 3, 0, Double.finite 0, Double.finite 1,
        Double.finite 2⟩] 0
      = some ([some ⟨Double.finite (1 / 2), 3, 0, Double.finite 0, Double.finite 1,
                 Double.finite 2⟩,
               some ⟨Double.finite (1 / 2), 3, 0, Double.finite 0, Double.finite 1,
                 Double.finite 2⟩], 1)
    ∧ ∃ (store1 : Store) (copy : Location) (copied : Location__Struct),
      Location__copy [some ⟨Double.finite (1 / 2), 3, 0, Double.finite 0, Double.finite 1,
        Double.finite 2⟩] 0 = some (store1, copy)
      ∧ store1[copy]? = some (some copied)
      ∧ copied.goodness = Double.finite (1 / 2) ∧ copied.id = 3
      ∧ copied.index = 0 ∧ copied.bearing = Double.finite 0
      ∧ copied.x = Double.finite 1 ∧ copied.y = Double.finite 2
      ∧ copy ≠ 0
      ∧ store1[0]? = some (some ⟨Double.finite (1 / 2), 3, 0, Double.finite 0,
          Double.finite 1, Double.finite 2⟩)
      ∧ ∀ value : Location__Struct,
          (store1.assign copy value)[0]? = some (some ⟨Double.finite (1 / 2), 3, 0,
            Double.finite 0, Double.finite 1, Double.finite 2⟩)
          ∧ (store1.assign copy value)[copy]? = some (some value) :=
  ⟨rfl, Location__copy_independent
    [some ⟨Double.finite (1 / 2), 3, 0, Double.finite 0, Double.finite 1, Double.finite 2⟩]
    0 ⟨Double.finite (1 / 2), 3, 0, Double.finite 0, Double.finite 1, Double.finite 2⟩ rfl⟩

end Fiducials
